import Mathlib

/-!
Verification of the command-line orchestration layer of `vroom-distance`
(`src/main.cpp`). The definitions below are a shallow embedding of the
program: the getopt-style flag scan, the deferred numeric conversion via
`std::stoul`, input acquisition, diagnostic configuration, and the
parse/solve/write orchestration. The external collaborators (`parse`, the
solver, the file system) are parameters of the model.
-/

set_option linter.unusedVariables false

deriving instance DecidableEq for Except

/-- Boost trivial severity levels, as used for `cl_args.log_level`. -/
inductive LogLevel where
  | trace
  | debug
  | info
  | warning
  | error
  | fatal
deriving DecidableEq, Repr

/-- Modelled from the spec: the configuration record `cl_args_t` lives in
`structures/cl_args.h`, which is not under `src/`;  fields and defaults
follow the spec's OptionSet (routing address "0.0.0.0", port "5000",
geometry off, empty input/output paths, 4 threads, exploration level 1
with fixed ceiling 5, least-verbose diagnostics).  The spec leaves the
width of the unsigned numeric fields open, so they are modelled as `Nat`. -/
structure cl_args_t where
  osrm_address : String := "0.0.0.0"
  osrm_port : String := "5000"
  osrm_profile : String := ""
  geometry : Bool := false
  input_file : String := ""
  use_libosrm : Bool := false
  output_file : String := ""
  nb_threads : Nat := 4
  exploration_level : Nat := 1
  max_exploration_level : Nat := 5
  log_level : LogLevel := LogLevel.warning
  input : String := ""
deriving DecidableEq, Repr

/-- The two exception classes `std::stoul` can throw. -/
inductive StoulError where
  | invalidArgument
  | outOfRange
deriving DecidableEq, Repr

/-- `ULONG_MAX` on the 64-bit platform the program targets. -/
def ULONG_MAX : Nat := 2 ^ 64 - 1

/-- C `isspace` in the default locale. -/
def isCSpace (c : Char) : Bool :=
  c = ' ' || c = '\t' || c = '\n' || c = '\x0b' || c = '\x0c' || c = '\r'

/-- Value of a base-10 digit string. -/
def digitsToNat (ds : List Char) : Nat :=
  ds.foldl (fun a c => a * 10 + (c.toNat - '0'.toNat)) 0

/-- The optional sign accepted by `strtoul` after the whitespace: returns
whether the value must be negated, and the remaining characters. -/
def signSplit : List Char → Bool × List Char
  | '-' :: t => (true, t)
  | '+' :: t => (false, t)
  | t => (false, t)

/-- Model of `std::stoul(s)` (base 10, via `strtoul`): skip leading
whitespace, read an optional sign, then a maximal run of decimal digits
(trailing characters are ignored).  No digits means
`std::invalid_argument`; a magnitude above `ULONG_MAX` means
`std::out_of_range`; a leading minus sign negates the value in unsigned
(mod `2^64`) arithmetic. -/
def stoul (s : String) : Except StoulError Nat :=
  let signed := signSplit (s.toList.dropWhile isCSpace)
  let ds := signed.2.takeWhile Char.isDigit
  if ds.isEmpty then Except.error StoulError.invalidArgument
  else
    let n := digitsToNat ds
    if ULONG_MAX < n then Except.error StoulError.outOfRange
    else Except.ok (if signed.1 then (2 ^ 64 - n) % 2 ^ 64 else n)

/-- Option characters of `optString = "a:gi:lm:o:p:t:vVx:h?"` that require
an argument. -/
def optTakesArg (c : Char) : Bool :=
  ['a', 'i', 'm', 'o', 'p', 't', 'x'].contains c

/-- Option characters of the `optString` that take no argument. -/
def optNoArg (c : Char) : Bool :=
  ['g', 'l', 'v', 'V', 'h', '?'].contains c

/-- One value returned by `getopt` to the `while` loop: the option
character (with `'?'` standing for an unrecognized option or a missing
required argument, exactly as `getopt` reports them) together with
`optarg`. -/
abbrev OptEvent := Char × Option String

/-- Result of scanning the characters of one `-abc` cluster: either a
finished list of events, or events followed by an option character whose
required argument must come from the next `argv` element. -/
inductive ClusterOut where
  | done (evs : List OptEvent)
  | needsArg (evs : List OptEvent) (c : Char)
deriving DecidableEq, Repr

/-- Scan the characters of one option cluster, as `getopt` does: a
character requiring an argument takes the rest of the cluster when
non-empty, otherwise the next `argv` element; other known characters
produce themselves and unknown characters produce `'?'`. -/
def scanClusterChars : List Char → ClusterOut
  | [] => ClusterOut.done []
  | c :: rest =>
    if optTakesArg c then
      match rest with
      | [] => ClusterOut.needsArg [] c
      | _ :: _ => ClusterOut.done [(c, some (String.mk rest))]
    else
      let ev : OptEvent := (if optNoArg c then c else '?', none)
      match scanClusterChars rest with
      | ClusterOut.done evs => ClusterOut.done (ev :: evs)
      | ClusterOut.needsArg evs c2 => ClusterOut.needsArg (ev :: evs) c2

/-- Outcome of the whole `getopt` scan: the sequence of option events seen
by the `while` loop, and the non-option arguments (glibc `getopt` permutes
`argv`, so after the scan `optind` points at the first of them, in their
original relative order). -/
structure ScanResult where
  events : List OptEvent
  positionals : List String
deriving DecidableEq, Repr

/-- Model of the glibc `getopt` loop over the argument vector (the part of
`argv` after the program name): `--` ends option scanning, an element of
length at least 2 beginning with `-` is an option cluster, anything else
is a non-option argument kept for `argv[optind]`. -/
def scanArgs : List String → ScanResult
  | [] => ⟨[], []⟩
  | s :: rest =>
    if s = "--" then ⟨[], rest⟩
    else if 2 ≤ s.length ∧ s.toList.head? = some '-' then
      match scanClusterChars s.toList.tail with
      | ClusterOut.done evs =>
        let r := scanArgs rest
        ⟨evs ++ r.events, r.positionals⟩
      | ClusterOut.needsArg evs c =>
        match rest with
        | [] => ⟨evs ++ [('?', none)], []⟩
        | a :: rest2 =>
          let r := scanArgs rest2
          ⟨evs ++ [(c, some a)] ++ r.events, r.positionals⟩
    else
      let r := scanArgs rest
      ⟨r.events, s :: r.positionals⟩

/-- State mutated by the `while (opt != -1)` loop: the option record plus
the two raw numeric strings `nb_threads_arg` and `exploration_level_arg`
whose conversion is deferred until after the scan. -/
structure ScanState where
  cl : cl_args_t
  nb_threads_arg : String
  exploration_level_arg : String
deriving DecidableEq, Repr

/-- The state before the loop: default `cl_args` and the textual defaults
`std::to_string(cl_args.nb_threads)` and
`std::to_string(cl_args.exploration_level)`. -/
def initialScanState : ScanState :=
  { cl := {}
    nb_threads_arg := toString (({} : cl_args_t).nb_threads)
    exploration_level_arg := toString (({} : cl_args_t).exploration_level) }

/-- One iteration of the `switch (opt)` statement, for every case except
`'h'` (which exits via `display_usage` and is handled by the caller).
Unlisted characters, `'?'` included, fall through to `default: break`. -/
def applyOpt (st : ScanState) (c : Char) (a : Option String) : ScanState :=
  if c = 'a' then { st with cl := { st.cl with osrm_address := a.getD "" } }
  else if c = 'g' then { st with cl := { st.cl with geometry := true } }
  else if c = 'i' then { st with cl := { st.cl with input_file := a.getD "" } }
  else if c = 'l' then { st with cl := { st.cl with use_libosrm := true } }
  else if c = 'm' then { st with cl := { st.cl with osrm_profile := a.getD "" } }
  else if c = 'o' then { st with cl := { st.cl with output_file := a.getD "" } }
  else if c = 'p' then { st with cl := { st.cl with osrm_port := a.getD "" } }
  else if c = 't' then { st with nb_threads_arg := a.getD "" }
  else if c = 'v' then { st with cl := { st.cl with log_level := LogLevel.info } }
  else if c = 'V' then { st with cl := { st.cl with log_level := LogLevel.trace } }
  else if c = 'x' then { st with exploration_level_arg := a.getD "" }
  else st

/-- Run the `while` loop over the scanned events.  Returns the final state
and whether `display_usage` (the `'h'` case, which calls `exit(0)`) was
reached; events after an `'h'` are never processed. -/
def processEvents : List OptEvent → ScanState → ScanState × Bool
  | [], st => (st, false)
  | (c, a) :: rest, st =>
    if c = 'h' then (st, true) else processEvents rest (applyOpt st c a)

/-- The whole flag-scanning phase of `main` on a given argument vector. -/
def scanPhase (args : List String) : ScanState × Bool :=
  processEvents (scanArgs args).events initialScanState

/-- The `try` block after the scan: convert `nb_threads_arg`, then
`exploration_level_arg`, with `std::stoul`, assigning each on success, and
finally clamp the exploration level to
`min(exploration_level, max_exploration_level)`.  The `Bool` is `false`
exactly when an exception was caught. -/
def validateNumerics (st : ScanState) : cl_args_t × Bool :=
  match stoul st.nb_threads_arg with
  | Except.error _ => (st.cl, false)
  | Except.ok t =>
    let cl := { st.cl with nb_threads := t }
    match stoul st.exploration_level_arg with
    | Except.error _ => (cl, false)
    | Except.ok x =>
      let cl2 := { cl with exploration_level := x }
      ({ cl2 with exploration_level := min cl2.exploration_level cl2.max_exploration_level },
        true)

/-- One document written by the program: the usage text printed by
`display_usage`, or a `write_to_json` call carrying either the error
envelope `{code, message}` or a solution, each with the geometry toggle
and the destination (`output_file`, empty meaning standard output). -/
inductive OutDoc (β : Type) where
  | usageText
  | errorDoc (code : Nat) (message : String) (geometry : Bool) (dest : String)
  | solutionDoc (sol : β) (geometry : Bool) (dest : String)
deriving DecidableEq, Repr

/-- Observable outcome of one invocation of `main`: the process exit code,
the documents written in order, the final option record, the severity
filter installed by `boost::log::core::get()->set_filter` (when reached),
and whether the parse collaborator, the solve collaborator and the input
acquisition step ran. -/
structure MainResult (β : Type) where
  exitCode : Nat
  outputs : List (OutDoc β)
  cl : cl_args_t
  filterSet : Option LogLevel
  parseCalled : Bool
  solveCalled : Bool
  inputAcquired : Bool
deriving DecidableEq, Repr

/-- The second `try` block of `main`: build the problem with the external
`parse` collaborator, solve it with `(exploration_level, nb_threads)`, and
write either the solution (honoring `cl.geometry`) or, on a
`custom_exception`, the error envelope `{1, message}` with geometry
`false`; failures `exit(1)`. -/
def runSolvePhase {α β : Type} (parse : cl_args_t → Except String α)
    (solve : α → Nat → Nat → Except String β) (cl : cl_args_t) : MainResult β :=
  match parse cl with
  | Except.error msg =>
    { exitCode := 1, outputs := [OutDoc.errorDoc 1 msg false cl.output_file], cl := cl
      filterSet := some cl.log_level, parseCalled := true, solveCalled := false
      inputAcquired := true }
  | Except.ok prob =>
    match solve prob cl.exploration_level cl.nb_threads with
    | Except.error msg =>
      { exitCode := 1, outputs := [OutDoc.errorDoc 1 msg false cl.output_file], cl := cl
        filterSet := some cl.log_level, parseCalled := true, solveCalled := true
        inputAcquired := true }
    | Except.ok sol =>
      { exitCode := 0, outputs := [OutDoc.solutionDoc sol cl.geometry cl.output_file], cl := cl
        filterSet := some cl.log_level, parseCalled := true, solveCalled := true
        inputAcquired := true }

/-- The whole of `main` on an argument vector (the part of `argv` after
the program name), parameterized by the external collaborators: `parse`
and `solve` (which report `custom_exception` messages via `Except`), and
the file system `fs` giving each path's readable contents (a missing file
reads as the empty string, as with an unopened `ifstream`). -/
def runMain {α β : Type} (parse : cl_args_t → Except String α)
    (solve : α → Nat → Nat → Except String β) (fs : String → String)
    (args : List String) : MainResult β :=
  let scan := scanArgs args
  match processEvents scan.events initialScanState with
  | (st, true) =>
    { exitCode := 0, outputs := [OutDoc.usageText], cl := st.cl, filterSet := none
      parseCalled := false, solveCalled := false, inputAcquired := false }
  | (st, false) =>
    match validateNumerics st with
    | (cl, false) =>
      { exitCode := 1
        outputs := [OutDoc.errorDoc 1 "Wrong numerical value." false cl.output_file]
        cl := cl, filterSet := none, parseCalled := false, solveCalled := false
        inputAcquired := false }
    | (cl, true) =>
      if cl.input_file = "" then
        match scan.positionals with
        | [] =>
          { exitCode := 0, outputs := [OutDoc.usageText], cl := cl, filterSet := none
            parseCalled := false, solveCalled := false, inputAcquired := false }
        | p :: _ => runSolvePhase parse solve { cl with input := p }
      else runSolvePhase parse solve { cl with input := fs cl.input_file }

/-- Value carried by the last occurrence of flag `c` in an event list
(the spec's "later flags overwrite earlier ones"); `none` when the flag
never occurs. -/
def lastFlagValue (c : Char) : List OptEvent → Option String
  | [] => none
  | (c2, a) :: rest =>
    match lastFlagValue c rest with
    | some v => some v
    | none => if c2 = c then some (a.getD "") else none

/-- Severity selected by the last `-v`/`-V` among the events; `none` when
neither occurs. -/
def lastVerbosity : List OptEvent → Option LogLevel
  | [] => none
  | (c, _) :: rest =>
    match lastVerbosity rest with
    | some l => some l
    | none =>
      if c = 'v' then some LogLevel.info
      else if c = 'V' then some LogLevel.trace
      else none

/-- Exactly one document per invocation, of the shape the exit code
prescribes: usage text or a solution with exit 0, an error envelope
`{code 1}` with geometry disabled with exit 1. -/
def outcomeShapeOk {β : Type} (r : MainResult β) : Bool :=
  match r.outputs, r.exitCode with
  | [OutDoc.usageText], 0 => true
  | [OutDoc.solutionDoc _ _ _], 0 => true
  | [OutDoc.errorDoc 1 _ false _], 1 => true
  | _, _ => false

/-- A parse collaborator that always succeeds (problems and solutions are
represented by `Nat` in concrete runs). -/
def okParse : cl_args_t → Except String Nat := fun _ => Except.ok 0

/-- A parse collaborator that always throws `custom_exception m`. -/
def errParse (m : String) : cl_args_t → Except String Nat := fun _ => Except.error m

/-- A solve collaborator that always succeeds. -/
def okSolve : Nat → Nat → Nat → Except String Nat := fun _ _ _ => Except.ok 0

/-- A solve collaborator that always throws `custom_exception m`. -/
def errSolve (m : String) : Nat → Nat → Nat → Except String Nat :=
  fun _ _ _ => Except.error m

/-- A file system on which every path reads as the given contents. -/
def constFs (contents : String) : String → String := fun _ => contents

/-- Every error envelope among the written documents carries geometry
`false`, and every solution document carries exactly the final option
record's geometry toggle. -/
def geometryOk {β : Type} (r : MainResult β) : Bool :=
  r.outputs.all fun d =>
    match d with
    | OutDoc.usageText => true
    | OutDoc.errorDoc _ _ g _ => !g
    | OutDoc.solutionDoc _ g _ => g == r.cl.geometry

/-! ### Helper lemmas about one switch iteration -/

theorem applyOpt_nb_threads_arg (st : ScanState) (c : Char) (a : Option String) :
    (applyOpt st c a).nb_threads_arg =
      if c = 't' then a.getD "" else st.nb_threads_arg := by
  rcases eq_or_ne c 'a' with h | ha
  · subst h; rfl
  rcases eq_or_ne c 'g' with h | hg
  · subst h; rfl
  rcases eq_or_ne c 'i' with h | hi
  · subst h; rfl
  rcases eq_or_ne c 'l' with h | hl
  · subst h; rfl
  rcases eq_or_ne c 'm' with h | hm
  · subst h; rfl
  rcases eq_or_ne c 'o' with h | ho
  · subst h; rfl
  rcases eq_or_ne c 'p' with h | hp
  · subst h; rfl
  rcases eq_or_ne c 't' with h | ht
  · subst h; rfl
  rcases eq_or_ne c 'v' with h | hv
  · subst h; rfl
  rcases eq_or_ne c 'V' with h | hV
  · subst h; rfl
  rcases eq_or_ne c 'x' with h | hx
  · subst h; rfl
  unfold applyOpt
  rw [if_neg ha, if_neg hg, if_neg hi, if_neg hl, if_neg hm, if_neg ho, if_neg hp,
    if_neg ht, if_neg hv, if_neg hV, if_neg hx, if_neg ht]

theorem applyOpt_exploration_level_arg (st : ScanState) (c : Char) (a : Option String) :
    (applyOpt st c a).exploration_level_arg =
      if c = 'x' then a.getD "" else st.exploration_level_arg := by
  rcases eq_or_ne c 'a' with h | ha
  · subst h; rfl
  rcases eq_or_ne c 'g' with h | hg
  · subst h; rfl
  rcases eq_or_ne c 'i' with h | hi
  · subst h; rfl
  rcases eq_or_ne c 'l' with h | hl
  · subst h; rfl
  rcases eq_or_ne c 'm' with h | hm
  · subst h; rfl
  rcases eq_or_ne c 'o' with h | ho
  · subst h; rfl
  rcases eq_or_ne c 'p' with h | hp
  · subst h; rfl
  rcases eq_or_ne c 't' with h | ht
  · subst h; rfl
  rcases eq_or_ne c 'v' with h | hv
  · subst h; rfl
  rcases eq_or_ne c 'V' with h | hV
  · subst h; rfl
  rcases eq_or_ne c 'x' with h | hx
  · subst h; rfl
  unfold applyOpt
  rw [if_neg ha, if_neg hg, if_neg hi, if_neg hl, if_neg hm, if_neg ho, if_neg hp,
    if_neg ht, if_neg hv, if_neg hV, if_neg hx, if_neg hx]

theorem applyOpt_log_level (st : ScanState) (c : Char) (a : Option String) :
    (applyOpt st c a).cl.log_level =
      if c = 'v' then LogLevel.info
      else if c = 'V' then LogLevel.trace
      else st.cl.log_level := by
  rcases eq_or_ne c 'a' with h | ha
  · subst h; rfl
  rcases eq_or_ne c 'g' with h | hg
  · subst h; rfl
  rcases eq_or_ne c 'i' with h | hi
  · subst h; rfl
  rcases eq_or_ne c 'l' with h | hl
  · subst h; rfl
  rcases eq_or_ne c 'm' with h | hm
  · subst h; rfl
  rcases eq_or_ne c 'o' with h | ho
  · subst h; rfl
  rcases eq_or_ne c 'p' with h | hp
  · subst h; rfl
  rcases eq_or_ne c 't' with h | ht
  · subst h; rfl
  rcases eq_or_ne c 'v' with h | hv
  · subst h; rfl
  rcases eq_or_ne c 'V' with h | hV
  · subst h; rfl
  rcases eq_or_ne c 'x' with h | hx
  · subst h; rfl
  unfold applyOpt
  rw [if_neg ha, if_neg hg, if_neg hi, if_neg hl, if_neg hm, if_neg ho, if_neg hp,
    if_neg ht, if_neg hv, if_neg hV, if_neg hx, if_neg hv, if_neg hV]

theorem applyOpt_input_file (st : ScanState) (c : Char) (a : Option String) :
    (applyOpt st c a).cl.input_file =
      if c = 'i' then a.getD "" else st.cl.input_file := by
  rcases eq_or_ne c 'a' with h | ha
  · subst h; rfl
  rcases eq_or_ne c 'g' with h | hg
  · subst h; rfl
  rcases eq_or_ne c 'i' with h | hi
  · subst h; rfl
  rcases eq_or_ne c 'l' with h | hl
  · subst h; rfl
  rcases eq_or_ne c 'm' with h | hm
  · subst h; rfl
  rcases eq_or_ne c 'o' with h | ho
  · subst h; rfl
  rcases eq_or_ne c 'p' with h | hp
  · subst h; rfl
  rcases eq_or_ne c 't' with h | ht
  · subst h; rfl
  rcases eq_or_ne c 'v' with h | hv
  · subst h; rfl
  rcases eq_or_ne c 'V' with h | hV
  · subst h; rfl
  rcases eq_or_ne c 'x' with h | hx
  · subst h; rfl
  unfold applyOpt
  rw [if_neg ha, if_neg hg, if_neg hi, if_neg hl, if_neg hm, if_neg ho, if_neg hp,
    if_neg ht, if_neg hv, if_neg hV, if_neg hx, if_neg hi]

theorem applyOpt_max_exploration_level (st : ScanState) (c : Char) (a : Option String) :
    (applyOpt st c a).cl.max_exploration_level = st.cl.max_exploration_level := by
  rcases eq_or_ne c 'a' with h | ha
  · subst h; rfl
  rcases eq_or_ne c 'g' with h | hg
  · subst h; rfl
  rcases eq_or_ne c 'i' with h | hi
  · subst h; rfl
  rcases eq_or_ne c 'l' with h | hl
  · subst h; rfl
  rcases eq_or_ne c 'm' with h | hm
  · subst h; rfl
  rcases eq_or_ne c 'o' with h | ho
  · subst h; rfl
  rcases eq_or_ne c 'p' with h | hp
  · subst h; rfl
  rcases eq_or_ne c 't' with h | ht
  · subst h; rfl
  rcases eq_or_ne c 'v' with h | hv
  · subst h; rfl
  rcases eq_or_ne c 'V' with h | hV
  · subst h; rfl
  rcases eq_or_ne c 'x' with h | hx
  · subst h; rfl
  unfold applyOpt
  rw [if_neg ha, if_neg hg, if_neg hi, if_neg hl, if_neg hm, if_neg ho, if_neg hp,
    if_neg ht, if_neg hv, if_neg hV, if_neg hx]

theorem applyOpt_question_mark (st : ScanState) (a : Option String) :
    applyOpt st '?' a = st := rfl

/-! ### Helper lemmas about the whole scanning loop -/

theorem processEvents_max_exploration_level (evs : List OptEvent) (st : ScanState) :
    ((processEvents evs st).1).cl.max_exploration_level = st.cl.max_exploration_level := by
  induction evs generalizing st with
  | nil => rfl
  | cons e rest ih =>
    obtain ⟨c, a⟩ := e
    simp only [processEvents]
    by_cases hc : c = 'h'
    · rw [if_pos hc]
    · rw [if_neg hc, ih, applyOpt_max_exploration_level]

theorem processEvents_nb_threads_arg (evs : List OptEvent) (st : ScanState)
    (h : (processEvents evs st).2 = false) :
    (processEvents evs st).1.nb_threads_arg =
      (lastFlagValue 't' evs).getD st.nb_threads_arg := by
  induction evs generalizing st with
  | nil => rfl
  | cons e rest ih =>
    obtain ⟨c, a⟩ := e
    simp only [processEvents] at h ⊢
    by_cases hc : c = 'h'
    · rw [if_pos hc] at h; simp at h
    · rw [if_neg hc] at h ⊢
      rw [ih _ h]
      simp only [lastFlagValue]
      cases hl : lastFlagValue 't' rest with
      | some v => rfl
      | none =>
        rw [applyOpt_nb_threads_arg]
        by_cases hct : c = 't' <;> simp [hct]

theorem processEvents_exploration_level_arg (evs : List OptEvent) (st : ScanState)
    (h : (processEvents evs st).2 = false) :
    (processEvents evs st).1.exploration_level_arg =
      (lastFlagValue 'x' evs).getD st.exploration_level_arg := by
  induction evs generalizing st with
  | nil => rfl
  | cons e rest ih =>
    obtain ⟨c, a⟩ := e
    simp only [processEvents] at h ⊢
    by_cases hc : c = 'h'
    · rw [if_pos hc] at h; simp at h
    · rw [if_neg hc] at h ⊢
      rw [ih _ h]
      simp only [lastFlagValue]
      cases hl : lastFlagValue 'x' rest with
      | some v => rfl
      | none =>
        rw [applyOpt_exploration_level_arg]
        by_cases hcx : c = 'x' <;> simp [hcx]

theorem processEvents_log_level (evs : List OptEvent) (st : ScanState)
    (h : (processEvents evs st).2 = false) :
    (processEvents evs st).1.cl.log_level =
      (lastVerbosity evs).getD st.cl.log_level := by
  induction evs generalizing st with
  | nil => rfl
  | cons e rest ih =>
    obtain ⟨c, a⟩ := e
    simp only [processEvents] at h ⊢
    by_cases hc : c = 'h'
    · rw [if_pos hc] at h; simp at h
    · rw [if_neg hc] at h ⊢
      rw [ih _ h]
      simp only [lastVerbosity]
      cases hl : lastVerbosity rest with
      | some v => rfl
      | none =>
        rw [applyOpt_log_level]
        by_cases hcv : c = 'v'
        · simp [hcv]
        · by_cases hcV : c = 'V' <;> simp [hcv, hcV]

theorem processEvents_input_file (evs : List OptEvent) (st : ScanState)
    (h : ∀ v : Option String, ('i', v) ∉ evs) :
    (processEvents evs st).1.cl.input_file = st.cl.input_file := by
  induction evs generalizing st with
  | nil => rfl
  | cons e rest ih =>
    obtain ⟨c, a⟩ := e
    have hc : c ≠ 'i' := by
      intro hc
      exact h a (by simp [hc])
    have hrest : ∀ v : Option String, ('i', v) ∉ rest := by
      intro v hv
      exact h v (List.mem_cons_of_mem _ hv)
    simp only [processEvents]
    by_cases hch : c = 'h'
    · rw [if_pos hch]
    · rw [if_neg hch, ih _ hrest, applyOpt_input_file, if_neg hc]

theorem processEvents_usage_of_mem (evs : List OptEvent) (st : ScanState)
    (a : Option String) (h : ('h', a) ∈ evs) :
    (processEvents evs st).2 = true := by
  induction evs generalizing st with
  | nil => simp at h
  | cons e rest ih =>
    obtain ⟨c, b⟩ := e
    simp only [processEvents]
    by_cases hc : c = 'h'
    · rw [if_pos hc]
    · rw [if_neg hc]
      rcases List.mem_cons.1 h with heq | hmem
      · cases heq
        exact absurd rfl hc
      · exact ih _ hmem

/-! ### Helper lemmas about validation and the solve phase -/

theorem validateNumerics_ok (st : ScanState) (t x : Nat)
    (ht : stoul st.nb_threads_arg = Except.ok t)
    (hx : stoul st.exploration_level_arg = Except.ok x) :
    validateNumerics st =
      ({ st.cl with
          nb_threads := t
          exploration_level := min x st.cl.max_exploration_level }, true) := by
  unfold validateNumerics
  rw [ht, hx]

theorem validateNumerics_preserves (st : ScanState) :
    (validateNumerics st).1.output_file = st.cl.output_file ∧
    (validateNumerics st).1.input_file = st.cl.input_file ∧
    (validateNumerics st).1.log_level = st.cl.log_level ∧
    (validateNumerics st).1.geometry = st.cl.geometry := by
  unfold validateNumerics
  cases stoul st.nb_threads_arg with
  | error e => exact ⟨rfl, rfl, rfl, rfl⟩
  | ok t =>
    cases stoul st.exploration_level_arg with
    | error e => exact ⟨rfl, rfl, rfl, rfl⟩
    | ok x => exact ⟨rfl, rfl, rfl, rfl⟩

theorem runSolvePhase_cl {α β : Type} (parse : cl_args_t → Except String α)
    (solve : α → Nat → Nat → Except String β) (cl : cl_args_t) :
    (runSolvePhase parse solve cl).cl = cl := by
  unfold runSolvePhase
  split
  · rfl
  · split <;> rfl

theorem runSolvePhase_filterSet {α β : Type} (parse : cl_args_t → Except String α)
    (solve : α → Nat → Nat → Except String β) (cl : cl_args_t) :
    (runSolvePhase parse solve cl).filterSet = some cl.log_level := by
  unfold runSolvePhase
  split
  · rfl
  · split <;> rfl

/-! ### The claims -/

/-- Claim C1: every invocation emits exactly one output document: each
failure path writes exactly one JSON error envelope (code 1, geometry
off) and exits 1, the success path writes exactly the solution document
and exits 0, and the usage path writes only the usage text and exits 0.
No path writes more than one document. -/
theorem c1_exactly_one_output {α β : Type} (parse : cl_args_t → Except String α)
    (solve : α → Nat → Nat → Except String β) (fs : String → String)
    (args : List String) :
    outcomeShapeOk (runMain parse solve fs args) = true := by
  simp only [runMain]
  split
  · rfl
  · split
    · rfl
    · split
      · split
        · rfl
        · simp only [runSolvePhase]
          split
          · rfl
          · split <;> rfl
      · simp only [runSolvePhase]
        split
        · rfl
        · split <;> rfl

theorem signSplit_minus (t : List Char) : signSplit ('-' :: t) = (true, t) := rfl

theorem signSplit_other (c : Char) (t : List Char) (h1 : c ≠ '-') (h2 : c ≠ '+') :
    signSplit (c :: t) = (false, c :: t) := by
  unfold signSplit
  split
  · rename_i heq
    rw [List.cons.injEq] at heq
    exact absurd heq.1 h1
  · rename_i heq
    rw [List.cons.injEq] at heq
    exact absurd heq.1 h2
  · rfl

theorem isCSpace_of_isDigit (c : Char) (h : c.isDigit = true) : isCSpace c = false := by
  by_cases hs : isCSpace c = true
  · simp only [isCSpace, Bool.or_eq_true, decide_eq_true_eq] at hs
    rcases hs with ((((h1 | h1) | h1) | h1) | h1) | h1 <;> subst h1 <;> simp at h
  · exact Bool.eq_false_iff.mpr fun hc => hs hc

theorem ne_minus_of_isDigit (c : Char) (h : c.isDigit = true) : c ≠ '-' := by
  intro hc
  subst hc
  simp at h

theorem ne_plus_of_isDigit (c : Char) (h : c.isDigit = true) : c ≠ '+' := by
  intro hc
  subst hc
  simp at h

theorem signSplit_plus (t : List Char) : signSplit ('+' :: t) = (false, t) := rfl

theorem dropWhile_append_of_forall {α : Type} (p : α → Bool) (ws l : List α)
    (h : ∀ c ∈ ws, p c = true) :
    List.dropWhile p (ws ++ l) = List.dropWhile p l := by
  induction ws with
  | nil => rfl
  | cons c ws ih =>
    rw [List.cons_append, List.dropWhile_cons, if_pos (h c (by simp))]
    exact ih fun c hc => h c (List.mem_cons_of_mem _ hc)

theorem takeWhile_append_of_break {α : Type} (p : α → Bool) (ds tl : List α)
    (h1 : ∀ c ∈ ds, p c = true)
    (h2 : tl = [] ∨ ∃ c t, tl = c :: t ∧ p c = false) :
    List.takeWhile p (ds ++ tl) = ds := by
  induction ds with
  | nil =>
    rcases h2 with rfl | ⟨c, t, rfl, hc⟩
    · rfl
    · rw [List.nil_append, List.takeWhile_cons, if_neg (by rw [hc]; simp)]
  | cons d ds ih =>
    rw [List.cons_append, List.takeWhile_cons, if_pos (h1 d (by simp))]
    rw [ih fun c hc => h1 c (List.mem_cons_of_mem _ hc)]

/-- Claim C2 counterexample: two values that are not valid unsigned
integers yet pass numeric validation.  `-t -4` is not rejected: with
collaborators that succeed, the run with thread-count text `"-4"` reaches
the parse and solve phase and exits 0, the thread count silently becoming
`2^64 - 4`; and `stoul "4abc"` ignores the trailing garbage and yields 4
instead of failing. -/
theorem c2_counterexample :
    (runMain okParse okSolve (constFs "") ["-t", "-4", "x"]).exitCode = 0 ∧
    (runMain okParse okSolve (constFs "") ["-t", "-4", "x"]).parseCalled = true ∧
    (runMain okParse okSolve (constFs "") ["-t", "-4", "x"]).cl.nb_threads = 2 ^ 64 - 4 ∧
    stoul "-4" = Except.ok (2 ^ 64 - 4) ∧
    stoul "4abc" = Except.ok 4 := by
  exact ⟨rfl, rfl, rfl, rfl, rfl⟩

/-- Claim C2 (amended): conversion of the `-t`/`-x` texts by `std::stoul`
fails with `invalid_argument` exactly on the values with no leading
decimal digits after optional whitespace and an optional sign — the empty
string, and any `whitespace* sign? rest` whose remainder starts with no
digit (so `" abc"`, `"-abc"`, `"+x"`, `"-"` all fail) — and with
`out_of_range` on digit strings whose magnitude exceeds `ULONG_MAX`; but
a negative value is NOT a validation failure: `strtoul` accepts `-`
followed by digits and negates the value modulo `2^64`, and trailing
non-numeric characters after the digits are likewise accepted, the digit
prefix alone being converted. -/
theorem c2_stoul_domain :
    (stoul "" = Except.error StoulError.invalidArgument) ∧
    (∀ ds : List Char, ds ≠ [] → (∀ c ∈ ds, c.isDigit = true) →
      digitsToNat ds ≤ ULONG_MAX →
      stoul (String.mk ('-' :: ds)) = Except.ok ((2 ^ 64 - digitsToNat ds) % 2 ^ 64)) ∧
    (∀ ds : List Char, (∀ c ∈ ds, c.isDigit = true) → ULONG_MAX < digitsToNat ds →
      stoul (String.mk ds) = Except.error StoulError.outOfRange) ∧
    (∀ ws sgn rest : List Char, (∀ c ∈ ws, isCSpace c = true) →
      (sgn = [] ∨ sgn = ['-'] ∨ sgn = ['+']) →
      (rest = [] ∨ ∃ c t, rest = c :: t ∧ c.isDigit = false ∧
        (sgn ≠ [] ∨ (c ≠ '-' ∧ c ≠ '+' ∧ isCSpace c = false))) →
      stoul (String.mk (ws ++ (sgn ++ rest))) = Except.error StoulError.invalidArgument) ∧
    (∀ ds tl : List Char, ds ≠ [] → (∀ c ∈ ds, c.isDigit = true) →
      digitsToNat ds ≤ ULONG_MAX →
      (tl = [] ∨ ∃ c t, tl = c :: t ∧ c.isDigit = false) →
      stoul (String.mk (ds ++ tl)) = Except.ok (digitsToNat ds)) := by
  refine ⟨rfl, ?_, ?_, ?_, ?_⟩
  · intro ds hne hdig hle
    obtain ⟨c, rest, rfl⟩ := List.exists_cons_of_ne_nil hne
    have h1 : List.dropWhile isCSpace (String.toList (String.mk ('-' :: c :: rest))) =
        '-' :: c :: rest := by
      rw [show String.toList (String.mk ('-' :: c :: rest)) = '-' :: c :: rest from rfl]
      rw [List.dropWhile_cons]
      rw [if_neg (by decide)]
    have htake : List.takeWhile Char.isDigit (c :: rest) = c :: rest :=
      List.takeWhile_eq_self_iff.mpr hdig
    simp only [stoul, h1, signSplit_minus, htake]
    rw [if_neg (show ¬((c :: rest).isEmpty = true) from by simp)]
    rw [if_neg (not_lt.mpr hle)]
    simp
  · intro ds hdig hov
    have hne : ds ≠ [] := by
      rintro rfl
      simp [digitsToNat, ULONG_MAX] at hov
    obtain ⟨c, rest, rfl⟩ := List.exists_cons_of_ne_nil hne
    have hc : c.isDigit = true := hdig c (by simp)
    have h1 : List.dropWhile isCSpace (String.toList (String.mk (c :: rest))) =
        c :: rest := by
      rw [show String.toList (String.mk (c :: rest)) = c :: rest from rfl]
      rw [List.dropWhile_cons]
      rw [if_neg (by rw [isCSpace_of_isDigit c hc]; simp)]
    have hsign := signSplit_other c rest (ne_minus_of_isDigit c hc) (ne_plus_of_isDigit c hc)
    have htake : List.takeWhile Char.isDigit (c :: rest) = c :: rest :=
      List.takeWhile_eq_self_iff.mpr hdig
    simp only [stoul, h1, hsign, htake]
    rw [if_neg (show ¬((c :: rest).isEmpty = true) from by simp)]
    rw [if_pos hov]
  · intro ws sgn rest hws hsgn hrest
    have h1 : List.dropWhile isCSpace (String.toList (String.mk (ws ++ (sgn ++ rest)))) =
        List.dropWhile isCSpace (sgn ++ rest) :=
      dropWhile_append_of_forall isCSpace ws (sgn ++ rest) hws
    simp only [stoul, h1]
    rcases hsgn with rfl | rfl | rfl
    · rcases hrest with rfl | ⟨c, t, rfl, hcd, hside⟩
      · rfl
      · have htriple : c ≠ '-' ∧ c ≠ '+' ∧ isCSpace c = false := by
          rcases hside with h | h
          · exact absurd rfl h
          · exact h
        obtain ⟨hm, hp, hs⟩ := htriple
        have h2 : List.dropWhile isCSpace (([] : List Char) ++ c :: t) = c :: t := by
          rw [List.nil_append, List.dropWhile_cons, if_neg (by rw [hs]; simp)]
        have hsign := signSplit_other c t hm hp
        have htake : List.takeWhile Char.isDigit (c :: t) = [] := by
          rw [List.takeWhile_cons, if_neg (by rw [hcd]; simp)]
        simp only [h2, hsign, htake]
        rfl
    · have h2 : List.dropWhile isCSpace ((['-'] : List Char) ++ rest) = '-' :: rest := by
        rw [show (['-'] : List Char) ++ rest = '-' :: rest from rfl]
        rw [List.dropWhile_cons, if_neg (by decide)]
      have htake : List.takeWhile Char.isDigit rest = [] := by
        rcases hrest with rfl | ⟨c, t, rfl, hcd, hside⟩
        · rfl
        · rw [List.takeWhile_cons, if_neg (by rw [hcd]; simp)]
      simp only [h2, signSplit_minus, htake]
      rfl
    · have h2 : List.dropWhile isCSpace ((['+'] : List Char) ++ rest) = '+' :: rest := by
        rw [show (['+'] : List Char) ++ rest = '+' :: rest from rfl]
        rw [List.dropWhile_cons, if_neg (by decide)]
      have htake : List.takeWhile Char.isDigit rest = [] := by
        rcases hrest with rfl | ⟨c, t, rfl, hcd, hside⟩
        · rfl
        · rw [List.takeWhile_cons, if_neg (by rw [hcd]; simp)]
      simp only [h2, signSplit_plus, htake]
      rfl
  · intro ds tl hne hdig hle htl
    obtain ⟨c, rest, rfl⟩ := List.exists_cons_of_ne_nil hne
    have hc : c.isDigit = true := hdig c (by simp)
    have h1 : List.dropWhile isCSpace (String.toList (String.mk ((c :: rest) ++ tl))) =
        c :: (rest ++ tl) := by
      rw [show String.toList (String.mk ((c :: rest) ++ tl)) = (c :: rest) ++ tl from rfl]
      rw [List.cons_append]
      rw [List.dropWhile_cons, if_neg (by rw [isCSpace_of_isDigit c hc]; simp)]
    have hsign := signSplit_other c (rest ++ tl) (ne_minus_of_isDigit c hc)
      (ne_plus_of_isDigit c hc)
    have htake : List.takeWhile Char.isDigit (c :: (rest ++ tl)) = c :: rest := by
      have h := takeWhile_append_of_break Char.isDigit (c :: rest) tl hdig htl
      rwa [List.cons_append] at h
    simp only [stoul, h1, hsign, htake]
    rw [if_neg (show ¬((c :: rest).isEmpty = true) from by simp)]
    rw [if_neg (not_lt.mpr hle)]
    simp

/-- Witness for the amended C2: concrete instances of each conjunct:
`stoul "-4"` wraps to `2^64 - 4`, a 23-digit string overflows,
`stoul " abc"` and `stoul "-abc"` have no digits after the whitespace and
the sign, and `stoul "4abc"` converts the digit prefix 4, ignoring the
trailing garbage. -/
theorem c2_stoul_domain_witness :
    stoul (String.mk ('-' :: ['4'])) = Except.ok ((2 ^ 64 - digitsToNat ['4']) % 2 ^ 64) ∧
    stoul (String.mk ['9', '9', '9', '9', '9', '9', '9', '9', '9', '9', '9', '9',
      '9', '9', '9', '9', '9', '9', '9', '9', '9', '9', '9']) =
      Except.error StoulError.outOfRange ∧
    stoul (String.mk ([' '] ++ ([] ++ ['a', 'b', 'c']))) =
      Except.error StoulError.invalidArgument ∧
    stoul (String.mk ([] ++ (['-'] ++ ['a', 'b', 'c']))) =
      Except.error StoulError.invalidArgument ∧
    stoul (String.mk (['4'] ++ ['a', 'b', 'c'])) = Except.ok (digitsToNat ['4']) :=
  ⟨c2_stoul_domain.2.1 ['4'] (by decide) (by decide) (by decide),
   c2_stoul_domain.2.2.1 _ (by decide) (by decide),
   c2_stoul_domain.2.2.2.1 [' '] [] ['a', 'b', 'c'] (by decide) (Or.inl rfl)
     (Or.inr ⟨'a', ['b', 'c'], rfl, by decide, Or.inr ⟨by decide, by decide, by decide⟩⟩),
   c2_stoul_domain.2.2.2.1 [] ['-'] ['a', 'b', 'c'] (by decide) (Or.inr (Or.inl rfl))
     (Or.inr ⟨'a', ['b', 'c'], rfl, by decide, Or.inl (by decide)⟩),
   c2_stoul_domain.2.2.2.2 ['4'] ['a', 'b', 'c'] (by decide) (by decide) (by decide)
     (Or.inr ⟨'a', ['b', 'c'], rfl, by decide⟩)⟩

theorem scanPhase_max_exploration_level (args : List String) :
    ((scanPhase args).1).cl.max_exploration_level = 5 := by
  unfold scanPhase
  rw [processEvents_max_exploration_level]
  rfl

/-- Claim C3: whenever numeric validation of the `-t`/`-x` texts fails,
the run writes the envelope `{code 1, message "Wrong numerical value."}`
to the output destination configured by the flags and exits 1, without
acquiring input and without calling parse or solve. -/
theorem c3_numeric_failure {α β : Type} (parse : cl_args_t → Except String α)
    (solve : α → Nat → Nat → Except String β) (fs : String → String)
    (args : List String) (st : ScanState)
    (hscan : scanPhase args = (st, false))
    (hval : (validateNumerics st).2 = false) :
    (runMain parse solve fs args).exitCode = 1 ∧
    (runMain parse solve fs args).outputs =
      [OutDoc.errorDoc 1 "Wrong numerical value." false st.cl.output_file] ∧
    (runMain parse solve fs args).inputAcquired = false ∧
    (runMain parse solve fs args).parseCalled = false ∧
    (runMain parse solve fs args).solveCalled = false := by
  have hpe : processEvents (scanArgs args).events initialScanState = (st, false) := hscan
  rcases hveq : validateNumerics st with ⟨cl, b⟩
  rw [hveq] at hval
  subst hval
  have hout : cl.output_file = st.cl.output_file := by
    have h := (validateNumerics_preserves st).1
    rw [hveq] at h
    exact h
  refine ⟨?_, ?_, ?_, ?_, ?_⟩ <;> simp only [runMain, hpe, hveq]
  rw [hout]

/-- Witness for C3: with `-o out.json -t abc`, the error envelope goes to
`out.json` and the process exits 1. -/
theorem c3_numeric_failure_witness :
    (runMain okParse okSolve (constFs "") ["-o", "out.json", "-t", "abc"]).outputs =
      [OutDoc.errorDoc 1 "Wrong numerical value." false "out.json"] ∧
    (runMain okParse okSolve (constFs "") ["-o", "out.json", "-t", "abc"]).exitCode = 1 ∧
    (runMain okParse okSolve (constFs "") ["-o", "out.json", "-t", "abc"]).parseCalled
      = false := by
  have h := c3_numeric_failure okParse okSolve (constFs "")
    ["-o", "out.json", "-t", "abc"] (scanPhase ["-o", "out.json", "-t", "abc"]).1
    (by rfl) (by rfl)
  refine ⟨?_, h.1, h.2.2.2.1⟩
  rw [h.2.1]
  rfl

/-- Claim C4: after successful numeric validation the exploration level is
`min(parsed, 5)`, hence always at most 5 whatever the input magnitude,
while the thread count is taken as parsed with no ceiling. -/
theorem c4_exploration_clamped (args : List String) (st : ScanState)
    (hscan : scanPhase args = (st, false)) (t x : Nat)
    (ht : stoul st.nb_threads_arg = Except.ok t)
    (hx : stoul st.exploration_level_arg = Except.ok x) :
    validateNumerics st =
      ({ st.cl with nb_threads := t, exploration_level := min x 5 }, true) ∧
    (validateNumerics st).1.exploration_level ≤ 5 ∧
    (validateNumerics st).1.nb_threads = t := by
  have hst : (scanPhase args).1 = st := congrArg Prod.fst hscan
  have hmax : st.cl.max_exploration_level = 5 := by
    rw [← hst]
    exact scanPhase_max_exploration_level args
  refine ⟨?_, ?_, ?_⟩
  · rw [validateNumerics_ok st t x ht hx, hmax]
  · rw [validateNumerics_ok st t x ht hx]
    show min x st.cl.max_exploration_level ≤ 5
    rw [hmax]
    exact min_le_right x 5
  · rw [validateNumerics_ok st t x ht hx]

/-- Witness for C4: `-x 9` yields an effective exploration level of 5 on
the default thread count 4. -/
theorem c4_exploration_clamped_witness :
    validateNumerics (scanPhase ["-x", "9"]).1 =
      ({ (({} : cl_args_t)) with nb_threads := 4, exploration_level := 5 }, true) := by
  have h := (c4_exploration_clamped ["-x", "9"] (scanPhase ["-x", "9"]).1
    (by rfl) 4 9 (by rfl) (by rfl)).1
  rw [h]
  rfl

/-- Claim C5 counterexample: `-?` does not trigger the usage display.
`getopt` returns `'?'` for it, and the `switch` has no `case '?'`, so it
falls into `default: break` and the run proceeds: with `vroom -? x` and a
failing parse collaborator, parse IS invoked and an error document — not
the usage text — is written, with exit code 1, refuting the claim that
every invocation containing `-?` prints usage and exits 0 with no
further processing. -/
theorem c5_counterexample :
    (runMain (errParse "E") okSolve (constFs "") ["-?", "x"]).outputs =
      [OutDoc.errorDoc 1 "E" false ""] ∧
    (runMain (errParse "E") okSolve (constFs "") ["-?", "x"]).exitCode = 1 ∧
    (runMain (errParse "E") okSolve (constFs "") ["-?", "x"]).parseCalled = true := by
  exact ⟨rfl, rfl, rfl⟩

/-- Claim C5 (amended): only `-h` triggers the usage display with
immediate successful exit and no further processing (no validation, no
input acquisition, no parse, no solve); `-?` is scanned without error but
its `'?'` event falls into the ignored default case and changes nothing. -/
theorem c5_usage_flag {α β : Type} (parse : cl_args_t → Except String α)
    (solve : α → Nat → Nat → Except String β) (fs : String → String)
    (args : List String) (a : Option String)
    (h : ('h', a) ∈ (scanArgs args).events) :
    (runMain parse solve fs args).outputs = [OutDoc.usageText] ∧
    (runMain parse solve fs args).exitCode = 0 ∧
    (runMain parse solve fs args).parseCalled = false ∧
    (runMain parse solve fs args).solveCalled = false ∧
    (runMain parse solve fs args).inputAcquired = false ∧
    (∀ (st : ScanState) (b : Option String), applyOpt st '?' b = st) := by
  rcases hpe : processEvents (scanArgs args).events initialScanState with ⟨st, u⟩
  have hu : u = true := by
    have h1 := processEvents_usage_of_mem (scanArgs args).events initialScanState a h
    rw [hpe] at h1
    exact h1
  subst hu
  refine ⟨?_, ?_, ?_, ?_, ?_, fun st b => applyOpt_question_mark st b⟩ <;>
    simp only [runMain, hpe]

/-- Witness for the amended C5: `vroom -h x` prints usage and exits 0
without calling parse. -/
theorem c5_usage_flag_witness :
    (runMain okParse okSolve (constFs "") ["-h", "x"]).outputs = [OutDoc.usageText] ∧
    (runMain okParse okSolve (constFs "") ["-h", "x"]).exitCode = 0 ∧
    (runMain okParse okSolve (constFs "") ["-h", "x"]).parseCalled = false := by
  have h := c5_usage_flag okParse okSolve (constFs "") ["-h", "x"] none (by decide)
  exact ⟨h.1, h.2.1, h.2.2.1⟩

/-- Claim C6: exactly one of the input file path and the positional
argument supplies the raw problem text: a non-empty `-i` path always wins
and its file contents become the payload, and only when it is empty does
the first positional argument's literal text become the payload. -/
theorem c6_input_source {α β : Type} (parse : cl_args_t → Except String α)
    (solve : α → Nat → Nat → Except String β) (fs : String → String)
    (args : List String) (st : ScanState) (cl : cl_args_t)
    (hscan : scanPhase args = (st, false))
    (hval : validateNumerics st = (cl, true)) :
    (cl.input_file ≠ "" → (runMain parse solve fs args).cl.input = fs cl.input_file) ∧
    (cl.input_file = "" → ∀ (p : String) (rest : List String),
      (scanArgs args).positionals = p :: rest →
      (runMain parse solve fs args).cl.input = p) := by
  have hpe : processEvents (scanArgs args).events initialScanState = (st, false) := hscan
  constructor
  · intro hne
    simp only [runMain, hpe, hval]
    rw [if_neg hne, runSolvePhase_cl]
  · intro hemp p rest hpos
    simp only [runMain, hpe, hval, hpos]
    rw [if_pos hemp, runSolvePhase_cl]

/-- Witness for C6: with `-i` the file contents win over the positional
argument; without `-i` the positional argument's literal text is used. -/
theorem c6_input_source_witness :
    (runMain okParse okSolve (constFs "FILE CONTENTS")
      ["-i", "problem.json", "pos"]).cl.input = "FILE CONTENTS" ∧
    (runMain okParse okSolve (constFs "") ["posarg"]).cl.input = "posarg" := by
  constructor
  · exact (c6_input_source okParse okSolve (constFs "FILE CONTENTS")
      ["-i", "problem.json", "pos"] (scanPhase ["-i", "problem.json", "pos"]).1
      (validateNumerics (scanPhase ["-i", "problem.json", "pos"]).1).1
      (by rfl) (by rfl)).1 (by decide)
  · exact (c6_input_source okParse okSolve (constFs "")
      ["posarg"] (scanPhase ["posarg"]).1
      (validateNumerics (scanPhase ["posarg"]).1).1
      (by rfl) (by rfl)).2 (by rfl) "posarg" [] (by rfl)

/-- Claim C7 counterexample: `vroom -t abc` has no `-i` flag and no
positional argument, yet it does not print usage and exit 0: numeric
validation fails first, so the error envelope is written and the exit
code is 1. -/
theorem c7_counterexample :
    (runMain okParse okSolve (constFs "") ["-t", "abc"]).exitCode = 1 ∧
    (runMain okParse okSolve (constFs "") ["-t", "abc"]).outputs =
      [OutDoc.errorDoc 1 "Wrong numerical value." false ""] ∧
    (scanArgs ["-t", "abc"]).positionals = [] ∧
    (∀ v : Option String, ('i', v) ∉ (scanArgs ["-t", "abc"]).events) := by
  refine ⟨rfl, rfl, rfl, ?_⟩
  intro v hv
  rw [show (scanArgs ["-t", "abc"]).events = [('t', some "abc")] from rfl] at hv
  have h := List.mem_singleton.1 hv
  have hc : ('i' : Char) = 't' := congrArg Prod.fst h
  exact absurd hc (by decide)

/-- Claim C7 (amended): an invocation with no `-i` flag and no positional
argument prints the usage text and exits 0, provided it either contains
`-h` or passes numeric validation of the `-t`/`-x` texts; when numeric
validation fails, the error path wins instead (exit 1, error envelope). -/
theorem c7_usage_on_missing_input {α β : Type} (parse : cl_args_t → Except String α)
    (solve : α → Nat → Nat → Except String β) (fs : String → String)
    (args : List String)
    (hnum : (scanPhase args).2 = true ∨ (validateNumerics (scanPhase args).1).2 = true)
    (hnoi : ∀ v : Option String, ('i', v) ∉ (scanArgs args).events)
    (hpos : (scanArgs args).positionals = []) :
    (runMain parse solve fs args).outputs = [OutDoc.usageText] ∧
    (runMain parse solve fs args).exitCode = 0 := by
  rcases hpe : processEvents (scanArgs args).events initialScanState with ⟨st, u⟩
  have hphase : scanPhase args = (st, u) := hpe
  cases u with
  | true =>
    refine ⟨?_, ?_⟩ <;> simp only [runMain, hpe]
  | false =>
    have hval : (validateNumerics st).2 = true := by
      rcases hnum with h | h
      · rw [hphase] at h
        simp at h
      · rw [hphase] at h
        exact h
    rcases hveq : validateNumerics st with ⟨cl, b⟩
    have hb : b = true := by
      rw [hveq] at hval
      exact hval
    subst hb
    have hinput : cl.input_file = "" := by
      have h1 : cl.input_file = st.cl.input_file := by
        have h2 := (validateNumerics_preserves st).2.1
        rw [hveq] at h2
        exact h2
      have h3 := processEvents_input_file (scanArgs args).events initialScanState hnoi
      rw [hpe] at h3
      rw [h1]
      exact h3
    refine ⟨?_, ?_⟩ <;> simp only [runMain, hpe, hveq, hpos] <;> rw [if_pos hinput]

/-- Witness for the amended C7: `vroom -g` (no `-i`, no positional, valid
default numerics) prints usage and exits 0. -/
theorem c7_usage_on_missing_input_witness :
    (runMain okParse okSolve (constFs "") ["-g"]).outputs = [OutDoc.usageText] ∧
    (runMain okParse okSolve (constFs "") ["-g"]).exitCode = 0 := by
  refine c7_usage_on_missing_input okParse okSolve (constFs "") ["-g"]
    (Or.inr (by rfl)) ?_ (by rfl)
  intro v hv
  rw [show (scanArgs ["-g"]).events = [('g', none)] from rfl] at hv
  have h := List.mem_singleton.1 hv
  have hc : ('i' : Char) = 'g' := congrArg Prod.fst h
  exact absurd hc (by decide)

/-- Claim C8: numeric conversion happens once, after the whole flag scan,
on the final textual value: when the run reaches validation, the raw
thread-count text is the value of the last `-t` occurrence (textual
default "4" when absent), the raw exploration text is the value of the
last `-x` occurrence (default "1"), and on success the effective values
are the conversions of exactly those final texts (with the exploration
clamp applied). -/
theorem c8_deferred_conversion (args : List String) (st : ScanState)
    (hscan : scanPhase args = (st, false)) :
    st.nb_threads_arg = (lastFlagValue 't' (scanArgs args).events).getD "4" ∧
    st.exploration_level_arg = (lastFlagValue 'x' (scanArgs args).events).getD "1" ∧
    (∀ t x : Nat, stoul st.nb_threads_arg = Except.ok t →
      stoul st.exploration_level_arg = Except.ok x →
      (validateNumerics st).1.nb_threads = t ∧
      (validateNumerics st).1.exploration_level = min x 5) := by
  have hpe : processEvents (scanArgs args).events initialScanState = (st, false) := hscan
  have h2 : (processEvents (scanArgs args).events initialScanState).2 = false := by
    rw [hpe]
  have hnb := processEvents_nb_threads_arg (scanArgs args).events initialScanState h2
  have hx := processEvents_exploration_level_arg (scanArgs args).events initialScanState h2
  rw [hpe] at hnb hx
  have hst : (scanPhase args).1 = st := congrArg Prod.fst hscan
  have hmax : st.cl.max_exploration_level = 5 := by
    rw [← hst]
    exact scanPhase_max_exploration_level args
  refine ⟨hnb, hx, ?_⟩
  intro t x ht hxok
  rw [validateNumerics_ok st t x ht hxok]
  refine ⟨rfl, ?_⟩
  show min x st.cl.max_exploration_level = min x 5
  rw [hmax]

/-- Witness for C8: with `-t 2 -t 7 -x 3` the later flags win, the raw
texts are "7" and "3", and validation converts exactly those. -/
theorem c8_deferred_conversion_witness :
    ((scanPhase ["-t", "2", "-t", "7", "-x", "3"]).1).nb_threads_arg =
      (lastFlagValue 't' (scanArgs ["-t", "2", "-t", "7", "-x", "3"]).events).getD "4" ∧
    ((scanPhase ["-t", "2", "-t", "7", "-x", "3"]).1).nb_threads_arg = "7" ∧
    (validateNumerics (scanPhase ["-t", "2", "-t", "7", "-x", "3"]).1).1.nb_threads = 7 ∧
    (validateNumerics (scanPhase ["-t", "2", "-t", "7", "-x", "3"]).1).1.exploration_level
      = 3 := by
  have h := c8_deferred_conversion ["-t", "2", "-t", "7", "-x", "3"]
    (scanPhase ["-t", "2", "-t", "7", "-x", "3"]).1 (by rfl)
  have hv := h.2.2 7 3 (by rfl) (by rfl)
  refine ⟨h.1, ?_, hv.1, ?_⟩
  · rw [h.1]
    rfl
  · rw [hv.2]
    decide

/-- Claim C9: every JSON error envelope is written with geometry rendering
disabled even when `-g` was supplied, while the solution document carries
exactly the geometry toggle of the final option record. -/
theorem c9_geometry_toggle {α β : Type} (parse : cl_args_t → Except String α)
    (solve : α → Nat → Nat → Except String β) (fs : String → String)
    (args : List String) :
    geometryOk (runMain parse solve fs args) = true := by
  simp only [runMain]
  split
  · rfl
  · split
    · rfl
    · split
      · split
        · rfl
        · simp only [runSolvePhase, geometryOk]
          split
          · rfl
          · split
            · rfl
            · simp
      · simp only [runSolvePhase, geometryOk]
        split
        · rfl
        · split
          · rfl
          · simp

/-- Claim C10: when the severity filter is installed, the minimum
diagnostic severity is determined by the last of the `-v`/`-V` flags
(`-v` selects info, `-V` selects trace, each overwriting the previous
setting), defaulting to the warning level when neither occurs; no
combination of the two flags is an error. -/
theorem c10_verbosity_last_wins {α β : Type} (parse : cl_args_t → Except String α)
    (solve : α → Nat → Nat → Except String β) (fs : String → String)
    (args : List String) (lvl : LogLevel)
    (h : (runMain parse solve fs args).filterSet = some lvl) :
    lvl = (lastVerbosity (scanArgs args).events).getD LogLevel.warning := by
  rcases hpe : processEvents (scanArgs args).events initialScanState with ⟨st, u⟩
  cases u with
  | true =>
    simp only [runMain, hpe] at h
    simp at h
  | false =>
    rcases hveq : validateNumerics st with ⟨cl, b⟩
    cases b with
    | false =>
      simp only [runMain, hpe, hveq] at h
      simp at h
    | true =>
      have hlog : cl.log_level = (lastVerbosity (scanArgs args).events).getD
          LogLevel.warning := by
        have h1 : cl.log_level = st.cl.log_level := by
          have h2 := (validateNumerics_preserves st).2.2.1
          rw [hveq] at h2
          exact h2
        have h3 : (processEvents (scanArgs args).events initialScanState).2 = false := by
          rw [hpe]
        have h4 := processEvents_log_level (scanArgs args).events initialScanState h3
        rw [hpe] at h4
        rw [h1]
        exact h4
      simp only [runMain, hpe, hveq] at h
      by_cases hif : cl.input_file = ""
      · rw [if_pos hif] at h
        rcases hpos : (scanArgs args).positionals with _ | ⟨p, rest⟩
        · simp only [hpos] at h
          simp at h
        · simp only [hpos, runSolvePhase_filterSet, Option.some.injEq] at h
          rw [← h]
          exact hlog
      · rw [if_neg hif] at h
        simp only [runSolvePhase_filterSet, Option.some.injEq] at h
        rw [← h]
        exact hlog

/-- Witness for C10: with `-V -v x`, the later `-v` wins and the installed
filter is the info severity. -/
theorem c10_verbosity_last_wins_witness :
    LogLevel.info = (lastVerbosity (scanArgs ["-V", "-v", "x"]).events).getD
      LogLevel.warning :=
  c10_verbosity_last_wins okParse okSolve (constFs "") ["-V", "-v", "x"]
    LogLevel.info (by rfl)
